import Mathlib

/-!
Shallow embedding of the cube-animation repository: the depth extractor
(processImage), the grid sampler and instance builder (updateCubes and
createCube), the GUI wiring (setupGUI), and the per-frame update (animate),
for both source variants (cube-animation.js and the unnamed variant).

Machine numbers are modelled as exact rationals; RGBA bytes as naturals.
The JS global Math.random() stream is modelled as an explicit function
from draw positions to values together with a running draw counter, and a
JS array read at an out-of-range index is modelled as Option.none
(undefined).
-/

namespace CubeAnim

/-- A decoded raster image as the canvas ImageData object: width, height,
and the flat RGBA byte buffer (length 4 * width * height for images the
browser produces). -/
structure ImageData where
  width : Nat
  height : Nat
  data : List Nat
deriving DecidableEq

/-- The three values of the colorMode parameter. -/
inductive ColorMode where
  | monochrome
  | sampled
  | custom
deriving DecidableEq

/-- An RGB material color whose channels may be undefined: a JS read out of
range yields undefined, which poisons the channel value. -/
structure JsColor where
  r : Option ℚ
  g : Option ℚ
  b : Option ℚ
deriving DecidableEq

/-- The mutable params record of the source. -/
structure Params where
  cubeDensity : ℚ
  rotationSpeed : ℚ
  pulseStrength : ℚ
  zDepthMultiplier : ℚ
  cubeSize : ℚ
  contrastThreshold : ℚ
  colorMode : ColorMode
  customColor : JsColor
deriving DecidableEq

/-- One renderable wireframe cube: position, rotation, scale, material
color, and the per-instance random rotation velocity stored in userData. -/
structure CubeInstance where
  posX : ℚ
  posY : ℚ
  posZ : ℚ
  rotX : ℚ
  rotY : ℚ
  rotZ : ℚ
  scaleX : ℚ
  scaleY : ℚ
  scaleZ : ℚ
  color : JsColor
  rotVelX : ℚ
  rotVelY : ℚ
  rotVelZ : ℚ
deriving DecidableEq

/-- JS typed-array read: a negative or out-of-range index yields
undefined, modelled as none. -/
def jsRead (l : List Nat) (i : ℤ) : Option Nat :=
  if i < 0 then none else l[i.toNat]?

/-- The loop body of processImage: walk the RGBA byte buffer four bytes at
a time and store (r + g + b) / (255 * 3) at the linear index of the pixel
(depthMap[i / 4] in the source). -/
def buildDepthMap : List Nat → List ℚ
  | r :: g :: b :: _ :: rest => ((r + g + b : ℕ) : ℚ) / (255 * 3) :: buildDepthMap rest
  | _ => []

/-- processImage: the depth extractor, producing the LuminanceField from
the decoded image. -/
def processImage (img : ImageData) : List ℚ :=
  buildDepthMap img.data

/-- gridSize = Math.floor(20 * params.cubeDensity); the JS loop bound, as a
natural number (a negative bound runs the loop zero times). -/
def gridSize (p : Params) : ℕ :=
  (Int.floor (20 * p.cubeDensity)).toNat

/-- The depth-map sampling index of grid cell (x, y):
Math.floor(y * stepY) * width + Math.floor(x * stepX) with
stepX = width / gridSize and stepY = height / gridSize. -/
def sampleIndex (w h g x y : ℕ) : ℕ :=
  (Int.floor ((y : ℚ) * ((h : ℚ) / (g : ℚ)))).toNat * w
    + (Int.floor ((x : ℚ) * ((w : ℚ) / (g : ℚ)))).toNat

/-- Material color resolution inside createCube: monochrome is fixed
white; sampled reinterprets the depth as a pixel index
Math.floor(depth * (data.length / 4)) and reads bytes index * 4,
index * 4 + 1, index * 4 + 2 without a bounds check; custom is the
user-chosen color. -/
def cubeColor (img : ImageData) (p : Params) (depth : ℚ) : JsColor :=
  match p.colorMode with
  | ColorMode.monochrome => ⟨some 1, some 1, some 1⟩
  | ColorMode.sampled =>
      let index := Int.floor (depth * ((img.data.length : ℚ) / 4))
      ⟨(jsRead img.data (index * 4)).map (fun v => (v : ℚ) / 255),
       (jsRead img.data (index * 4 + 1)).map (fun v => (v : ℚ) / 255),
       (jsRead img.data (index * 4 + 2)).map (fun v => (v : ℚ) / 255)⟩
  | ColorMode.custom => p.customColor

/-- createCube of cube-animation.js: scale set from cubeSize on all axes,
material color from the color mode, and a rotation velocity drawn from
three successive Math.random() values r1 r2 r3, each shifted by 0.5 and
scaled by the live rotationSpeed parameter. -/
def createCube (img : ImageData) (p : Params) (depth : ℚ) (r1 r2 r3 : ℚ) : CubeInstance :=
  { posX := 0, posY := 0, posZ := 0,
    rotX := 0, rotY := 0, rotZ := 0,
    scaleX := p.cubeSize, scaleY := p.cubeSize, scaleZ := p.cubeSize,
    color := cubeColor img p depth,
    rotVelX := (r1 - 1/2) * p.rotationSpeed,
    rotVelY := (r2 - 1/2) * p.rotationSpeed,
    rotVelZ := (r3 - 1/2) * p.rotationSpeed }

/-- The nested grid loop order of updateCubes: x outer, y inner, both from
0 to gridSize - 1. -/
def cellList (g : ℕ) : List (ℕ × ℕ) :=
  (List.range g).flatMap fun x => (List.range g).map fun y => (x, y)

/-- The grid cells updateCubes keeps, in loop order, each with its sampled
depth: cell (x, y) is kept exactly when the depth map read at
sampleIndex yields a defined value strictly above contrastThreshold
(undefined > t is false in JS). -/
def keptCells (img : ImageData) (field : List ℚ) (p : Params) : List (ℕ × ℕ × ℚ) :=
  (cellList (gridSize p)).filterMap fun c =>
    (field[sampleIndex img.width img.height (gridSize p) c.1 c.2]?).bind fun depth =>
      if p.contrastThreshold < depth then some (c.1, c.2, depth) else none

/-- The body of the kept branch of updateCubes: createCube, then set the
centered-grid position (x - gridSize/2) * 0.5, (y - gridSize/2) * 0.5 and
z = depth * zDepthMultiplier. k is the position in the random stream. -/
def placeCube (img : ImageData) (p : Params) (rand : ℕ → ℚ) (k : ℕ) (c : ℕ × ℕ × ℚ) :
    CubeInstance :=
  let cube := createCube img p c.2.2 (rand k) (rand (k + 1)) (rand (k + 2))
  { cube with
      posX := ((c.1 : ℚ) - (gridSize p : ℚ) / 2) * (1/2),
      posY := ((c.2.1 : ℚ) - (gridSize p : ℚ) / 2) * (1/2),
      posZ := c.2.2 * p.zDepthMultiplier }

/-- Build one cube per kept cell in loop order; each cube consumes three
successive Math.random() draws starting at stream position k. -/
def buildCubes (img : ImageData) (p : Params) (rand : ℕ → ℚ) :
    ℕ → List (ℕ × ℕ × ℚ) → List CubeInstance
  | _, [] => []
  | k, c :: rest => placeCube img p rand k c :: buildCubes img p rand (k + 3) rest

/-- updateCubes run with the random stream at position k: the rebuilt cube
list together with the advanced stream position. -/
def updateCubesFrom (img : ImageData) (field : List ℚ) (p : Params) (rand : ℕ → ℚ)
    (k : ℕ) : List CubeInstance × ℕ :=
  (buildCubes img p rand k (keptCells img field p),
   k + 3 * (keptCells img field p).length)

/-- updateCubes: the grid sampler and instance builder, from the start of
the random stream. -/
def updateCubes (img : ImageData) (field : List ℚ) (p : Params) (rand : ℕ → ℚ) :
    List CubeInstance :=
  (updateCubesFrom img field p rand 0).1

/-- One per-frame update of a single cube in cube-animation.js: integrate
rotation by the stored per-instance velocity and overwrite the scale with
1 + Math.sin(time * 2) * pulseStrength on all three axes; sinv stands for
the value of Math.sin(time * 2) at this frame. -/
def animateCube (p : Params) (sinv : ℚ) (c : CubeInstance) : CubeInstance :=
  let scale := 1 + sinv * p.pulseStrength
  { c with
      rotX := c.rotX + c.rotVelX,
      rotY := c.rotY + c.rotVelY,
      rotZ := c.rotZ + c.rotVelZ,
      scaleX := scale, scaleY := scale, scaleZ := scale }

/-- One per-frame update of a single cube in the unnamed variant: the
stored velocity is additionally scaled by the live rotationSpeed, and the
scale is (1 + Math.sin(time * 2) * pulseStrength * 0.2) * cubeSize on all
three axes. -/
def animateCubeAlt (p : Params) (sinv : ℚ) (c : CubeInstance) : CubeInstance :=
  let scale := 1 + sinv * p.pulseStrength * (2/10)
  { c with
      rotX := c.rotX + c.rotVelX * p.rotationSpeed,
      rotY := c.rotY + c.rotVelY * p.rotationSpeed,
      rotZ := c.rotZ + c.rotVelZ * p.rotationSpeed,
      scaleX := scale * p.cubeSize,
      scaleY := scale * p.cubeSize,
      scaleZ := scale * p.cubeSize }

/-- The cubes.forEach body of animate in cube-animation.js applied to the
whole live cube list. -/
def animateFrame (p : Params) (sinv : ℚ) (cubes : List CubeInstance) : List CubeInstance :=
  cubes.map (animateCube p sinv)

/-- The cubes.forEach body of animate in the unnamed variant applied to
the whole live cube list. -/
def animateFrameAlt (p : Params) (sinv : ℚ) (cubes : List CubeInstance) : List CubeInstance :=
  cubes.map (animateCubeAlt p sinv)

/-- A single edit through the dat.GUI panel. -/
inductive GuiEdit where
  | setCubeDensity (v : ℚ)
  | setRotationSpeed (v : ℚ)
  | setPulseStrength (v : ℚ)
  | setZDepthMultiplier (v : ℚ)
  | setCubeSize (v : ℚ)
  | setContrastThreshold (v : ℚ)
  | setColorMode (m : ColorMode)
  | setCustomColor (c : JsColor)

/-- Effect of a GUI edit on the params record. -/
def applyEdit (p : Params) : GuiEdit → Params
  | GuiEdit.setCubeDensity v => { p with cubeDensity := v }
  | GuiEdit.setRotationSpeed v => { p with rotationSpeed := v }
  | GuiEdit.setPulseStrength v => { p with pulseStrength := v }
  | GuiEdit.setZDepthMultiplier v => { p with zDepthMultiplier := v }
  | GuiEdit.setCubeSize v => { p with cubeSize := v }
  | GuiEdit.setContrastThreshold v => { p with contrastThreshold := v }
  | GuiEdit.setColorMode m => { p with colorMode := m }
  | GuiEdit.setCustomColor c => { p with customColor := c }

/-- setupGUI wiring: only the cubeDensity and contrastThreshold
controllers carry onChange(updateCubes); every other controller only
writes the parameter value. -/
def guiTriggersRebuild : GuiEdit → Bool
  | GuiEdit.setCubeDensity _ => true
  | GuiEdit.setContrastThreshold _ => true
  | _ => false

/-- The module-scoped mutable state: params, the loaded image with its
depth map (null before the first upload), the live cube list, and the
position reached in the Math.random() stream. -/
structure SysState where
  params : Params
  loaded : Option (ImageData × List ℚ)
  cubes : List CubeInstance
  randCtr : ℕ

/-- updateCubes as invoked on the module state: it always clears the cube
list, returns early if no depth map exists, and otherwise rebuilds the
list from the grid. -/
def runUpdateCubes (rand : ℕ → ℚ) (s : SysState) : SysState :=
  match s.loaded with
  | none => { s with cubes := [] }
  | some il =>
      let r := updateCubesFrom il.1 il.2 s.params rand s.randCtr
      { s with cubes := r.1, randCtr := r.2 }

/-- One GUI edit applied to the module state: the parameter is written,
and the cube list is rebuilt exactly when the edited controller has an
onChange(updateCubes) handler. -/
def applyGuiEdit (rand : ℕ → ℚ) (s : SysState) (e : GuiEdit) : SysState :=
  let s1 := { s with params := applyEdit s.params e }
  if guiTriggersRebuild e then runUpdateCubes rand s1 else s1

/-- Erase the randomly drawn rotation velocity of an instance, keeping
every other attribute. -/
def forgetRotVel (c : CubeInstance) : CubeInstance :=
  { c with rotVelX := 0, rotVelY := 0, rotVelZ := 0 }

/-- Concrete 1 by 1 image with one dark pixel, used as a test input. -/
def imgC1 : ImageData := ⟨1, 1, [10, 20, 30, 255]⟩

/-- Concrete 2 by 1 image: a mid-grey pixel then an almost-black pixel. -/
def img21 : ImageData := ⟨2, 1, [153, 153, 153, 255, 7, 8, 9, 255]⟩

/-- Concrete 1 by 1 all-white image (the only pixel has depth exactly 1). -/
def imgWhite : ImageData := ⟨1, 1, [255, 255, 255, 255]⟩

/-- Concrete degenerate image of width zero. -/
def imgZero : ImageData := ⟨0, 3, []⟩

/-- A concrete deterministic stand-in for the Math.random() stream. -/
def randLin : ℕ → ℚ := fun n => (n : ℚ) / 100

/-- The fixed white color. -/
def whiteColor : JsColor := ⟨some 1, some 1, some 1⟩

/-- Concrete parameter record: density 1/20 (grid edge 1), threshold 0. -/
def pTiny : Params := ⟨1/20, 1/2, 1/2, 1, 1, 0, ColorMode.monochrome, whiteColor⟩

/-- Same as pTiny except for the depth multiplier. -/
def pB : Params := ⟨1/20, 1/2, 1/2, 2, 1, 0, ColorMode.monochrome, whiteColor⟩

/-- Concrete parameter record with density 1/2 and threshold 1. -/
def pC2 : Params := ⟨1/2, 1/2, 1/2, 1, 1, 1, ColorMode.monochrome, whiteColor⟩

/-- Concrete parameter record with cubeSize 2, for the per-frame update. -/
def pC6 : Params := ⟨1/2, 1/2, 1/2, 1, 2, 1/2, ColorMode.monochrome, whiteColor⟩

/-- Concrete parameter record in sampled color mode. -/
def pSampled : Params := ⟨1/2, 1/2, 1/2, 1, 1, 1/2, ColorMode.sampled, whiteColor⟩

/-- Length of the depth map: one entry per full RGBA quadruple. -/
theorem buildDepthMap_length (l : List Nat) : (buildDepthMap l).length = l.length / 4 := by
  match l with
  | [] => simp [buildDepthMap]
  | [a] => simp [buildDepthMap]
  | [a, b] => simp [buildDepthMap]
  | [a, b, c] => simp [buildDepthMap]
  | a :: b :: c :: d :: rest =>
      have ih := buildDepthMap_length rest
      simp [buildDepthMap, ih]
      omega

/-- Dropping four leading bytes shifts getD by four. -/
theorem getD_cons4 (a b c d : ℕ) (l : List Nat) (m : ℕ) :
    (a :: b :: c :: d :: l).getD (m + 4) 0 = l.getD m 0 := by
  have e : m + 4 = (((m + 1) + 1) + 1) + 1 := by omega
  rw [e]
  simp [List.getD_cons_succ]

/-- The depth map entry at pixel index p is the luminance of bytes
4p, 4p+1, 4p+2 of the buffer. -/
theorem buildDepthMap_getD (p : ℕ) : ∀ l : List Nat, 4 * p + 3 < l.length →
    (buildDepthMap l)[p]? =
      some (((l.getD (4 * p) 0 + l.getD (4 * p + 1) 0 + l.getD (4 * p + 2) 0 : ℕ) : ℚ)
        / (255 * 3)) := by
  induction p with
  | zero =>
      intro l hl
      match l with
      | [] => simp at hl
      | [a] => simp at hl
      | [a, b] => simp at hl
      | [a, b, c] => simp at hl
      | a :: b :: c :: d :: rest => simp [buildDepthMap, List.getD]
  | succ p ih =>
      intro l hl
      match l with
      | [] => exact absurd hl (by simp)
      | [a] => exact absurd hl (by simp)
      | [a, b] => exact absurd hl (by simp)
      | [a, b, c] => exact absurd hl (by simp)
      | a :: b :: c :: d :: rest =>
          have hrest : 4 * p + 3 < rest.length := by
            simp at hl
            omega
          have ihr := ih rest hrest
          have e0 : 4 * (p + 1) = 4 * p + 4 := by ring
          have e1 : 4 * (p + 1) + 1 = (4 * p + 1) + 4 := by ring
          have e2 : 4 * (p + 1) + 2 = (4 * p + 2) + 4 := by ring
          rw [e2, e1, e0, getD_cons4, getD_cons4, getD_cons4]
          simpa [buildDepthMap] using ihr

/-- Every depth map value made from bytes bounded by 255 lies in [0, 1]. -/
theorem buildDepthMap_mem_bounds (l : List Nat) (hb : ∀ x ∈ l, x ≤ 255) :
    ∀ v ∈ buildDepthMap l, 0 ≤ v ∧ v ≤ 1 := by
  match l with
  | [] => simp [buildDepthMap]
  | [a] => simp [buildDepthMap]
  | [a, b] => simp [buildDepthMap]
  | [a, b, c] => simp [buildDepthMap]
  | a :: b :: c :: d :: rest =>
      intro v hv
      simp only [buildDepthMap, List.mem_cons] at hv
      rcases hv with hv | hv
      · subst hv
        constructor
        · positivity
        · rw [div_le_one (by norm_num)]
          have ha : a ≤ 255 := hb a (by simp)
          have hbb : b ≤ 255 := hb b (by simp)
          have hc : c ≤ 255 := hb c (by simp)
          have : (a + b + c : ℕ) ≤ 765 := by omega
          calc ((a + b + c : ℕ) : ℚ) ≤ (765 : ℕ) := by exact_mod_cast this
            _ = 255 * 3 := by norm_num
      · exact buildDepthMap_mem_bounds rest (fun x hx => hb x (by simp [hx])) v hv

/-- C1: for a decoded image of width w and height h with RGBA pixel bytes
(data length 4wh, each byte at most 255), the depth extractor produces a
LuminanceField of length exactly w * h whose value at each linear pixel
index p equals (R + G + B) / (3 * 255) for the bytes of pixel p, and every
value lies in [0, 1]. -/
theorem C1_depth_extractor (img : ImageData)
    (hlen : img.data.length = 4 * (img.width * img.height))
    (hbytes : ∀ x ∈ img.data, x ≤ 255) :
    (processImage img).length = img.width * img.height ∧
    (∀ p r g b, img.data[4 * p]? = some r → img.data[4 * p + 1]? = some g →
      img.data[4 * p + 2]? = some b →
      (processImage img)[p]? = some (((r + g + b : ℕ) : ℚ) / (255 * 3))) ∧
    (∀ v ∈ processImage img, 0 ≤ v ∧ v ≤ 1) := by
  refine ⟨?_, ?_, ?_⟩
  · rw [processImage, buildDepthMap_length, hlen]
    omega
  · intro p r g b hr hg hb2
    have hidx : 4 * p + 2 < img.data.length := by
      by_contra hc
      rw [List.getElem?_eq_none (by omega)] at hb2
      exact Option.noConfusion hb2
    have hp : 4 * p + 3 < img.data.length := by omega
    have h := buildDepthMap_getD p img.data hp
    rw [processImage, h]
    have er : img.data.getD (4 * p) 0 = r := by
      rw [List.getD_eq_getElem?_getD, hr]
      rfl
    have eg : img.data.getD (4 * p + 1) 0 = g := by
      rw [List.getD_eq_getElem?_getD, hg]
      rfl
    have eb : img.data.getD (4 * p + 2) 0 = b := by
      rw [List.getD_eq_getElem?_getD, hb2]
      rfl
    rw [er, eg, eb]
  · exact buildDepthMap_mem_bounds img.data hbytes

/-- C1 witness: the theorem applied to a concrete 1 by 1 image. -/
theorem C1_witness :
    (processImage imgC1).length = 1 ∧
    (processImage imgC1)[0]? = some (((10 + 20 + 30 : ℕ) : ℚ) / (255 * 3)) := by
  have h := C1_depth_extractor imgC1 (by decide) (by decide)
  exact ⟨h.1, h.2.1 0 10 20 30 (by decide) (by decide) (by decide)⟩

/-- The grid loop visits gridSize * gridSize cells. -/
theorem cellList_length (g : ℕ) : (cellList g).length = g * g := by
  rw [cellList, List.length_flatMap]
  simp [Function.comp_def, List.map_const']

/-- Membership in the grid cell list is exactly the loop bounds. -/
theorem mem_cellList (g x y : ℕ) : (x, y) ∈ cellList g ↔ x < g ∧ y < g := by
  simp [cellList, List.mem_flatMap, List.mem_map, List.mem_range]

/-- Membership in the kept-cell list: cell (x, y) with depth d is kept
exactly when (x, y) is a grid cell, the depth map read at the sampling
index is defined and equal to d, and d is strictly above the threshold. -/
theorem mem_keptCells (img : ImageData) (field : List ℚ) (p : Params) (x y : ℕ) (d : ℚ) :
    (x, y, d) ∈ keptCells img field p ↔
      x < gridSize p ∧ y < gridSize p ∧
      field[sampleIndex img.width img.height (gridSize p) x y]? = some d ∧
      p.contrastThreshold < d := by
  simp only [keptCells, List.mem_filterMap]
  constructor
  · rintro ⟨⟨a, b⟩, hab, hf⟩
    simp only [Option.bind_eq_some] at hf
    obtain ⟨dep, hread, hif⟩ := hf
    by_cases hlt : p.contrastThreshold < dep
    · rw [if_pos hlt] at hif
      simp only [Option.some.injEq, Prod.mk.injEq] at hif
      obtain ⟨rfl, rfl, rfl⟩ := hif
      have hm := (mem_cellList (gridSize p) a b).mp hab
      exact ⟨hm.1, hm.2, hread, hlt⟩
    · rw [if_neg hlt] at hif
      exact absurd hif (by simp)
  · rintro ⟨hx, hy, hread, hlt⟩
    refine ⟨(x, y), (mem_cellList (gridSize p) x y).mpr ⟨hx, hy⟩, ?_⟩
    rw [hread]
    simp [hlt]

/-- buildCubes produces one cube per kept cell. -/
theorem buildCubes_length (img : ImageData) (p : Params) (rand : ℕ → ℚ) :
    ∀ (k : ℕ) (l : List (ℕ × ℕ × ℚ)), (buildCubes img p rand k l).length = l.length := by
  intro k l
  induction l generalizing k with
  | nil => rfl
  | cons c rest ih => simp [buildCubes, ih]

/-- Every cube built by buildCubes is placeCube of some cell of the list. -/
theorem mem_buildCubes (img : ImageData) (p : Params) (rand : ℕ → ℚ) :
    ∀ (k : ℕ) (l : List (ℕ × ℕ × ℚ)) (inst : CubeInstance),
      inst ∈ buildCubes img p rand k l →
      ∃ j c, c ∈ l ∧ inst = placeCube img p rand j c := by
  intro k l
  induction l generalizing k with
  | nil => simp [buildCubes]
  | cons c rest ih =>
      intro inst hinst
      rcases List.mem_cons.mp hinst with h | h
      · exact ⟨k, c, by simp, h⟩
      · obtain ⟨j, c2, hc2, he⟩ := ih (k + 3) inst h
        exact ⟨j, c2, by simp [hc2], he⟩

/-- C2: the sampler uses grid edge floor(20 * density) (in particular 10
when density is 1/2), produces at most gridSize squared instances (one per
kept cell), keeps no cell whose sampled depth is at or below
contrastThreshold, and with contrastThreshold equal to 1 produces no
instance at all for any image made of 8-bit RGBA pixels. -/
theorem C2_grid_sampler (img : ImageData) (field : List ℚ) (p : Params) (rand : ℕ → ℚ) :
    (p.cubeDensity = 1/2 → gridSize p = 10) ∧
    (updateCubes img field p rand).length ≤ gridSize p * gridSize p ∧
    (updateCubes img field p rand).length = (keptCells img field p).length ∧
    (∀ x y d, (x, y, d) ∈ keptCells img field p →
      field[sampleIndex img.width img.height (gridSize p) x y]? = some d ∧
      p.contrastThreshold < d) ∧
    (p.contrastThreshold = 1 →
      ∀ img2 : ImageData, (∀ v ∈ img2.data, v ≤ 255) →
        updateCubes img2 (processImage img2) p rand = []) := by
  refine ⟨?_, ?_, ?_, ?_, ?_⟩
  · intro hd
    rw [gridSize, hd]
    norm_num
    rfl
  · rw [updateCubes, updateCubesFrom]
    simp only [buildCubes_length]
    calc (keptCells img field p).length
        ≤ (cellList (gridSize p)).length := List.length_filterMap_le _ _
      _ = gridSize p * gridSize p := cellList_length (gridSize p)
  · rw [updateCubes, updateCubesFrom]
    simp only [buildCubes_length]
  · intro x y d hm
    have h := (mem_keptCells img field p x y d).mp hm
    exact ⟨h.2.2.1, h.2.2.2⟩
  · intro ht img2 hbytes
    have hkept : keptCells img2 (processImage img2) p = [] := by
      rw [keptCells]
      refine List.filterMap_eq_nil_iff.mpr ?_
      intro c _
      rcases hread : (processImage img2)[sampleIndex img2.width img2.height
          (gridSize p) c.1 c.2]? with _ | dep
      · rfl
      · have hdep : dep ≤ 1 :=
          (buildDepthMap_mem_bounds img2.data hbytes dep (List.getElem?_mem hread)).2
        have : ¬ p.contrastThreshold < dep := by
          rw [ht]
          exact not_lt.mpr hdep
        simp [this]
    rw [updateCubes, updateCubesFrom, hkept]
    rfl

/-- C2 witness: with density 1/2 the grid edge is 10, and with threshold 1
the sampler yields no instance on a concrete image. -/
theorem C2_witness :
    gridSize pC2 = 10 ∧
    updateCubes imgC1 (processImage imgC1) pC2 randLin = [] := by
  have h := C2_grid_sampler imgC1 (processImage imgC1) pC2 randLin
  exact ⟨h.1 rfl, h.2.2.2.2 rfl imgC1 (by decide)⟩

/-- For a grid coordinate a below g, floor(a * (n / g)) is below n. -/
theorem floor_coord_lt (a n g : ℕ) (hn : 1 ≤ n) (ha : a < g) :
    (Int.floor ((a : ℚ) * ((n : ℚ) / (g : ℚ)))).toNat < n := by
  have hg0 : (0 : ℚ) < (g : ℚ) := by
    have : 0 < g := Nat.lt_of_le_of_lt (Nat.zero_le a) ha
    exact_mod_cast this
  have hn0 : (0 : ℚ) < (n : ℚ) := by exact_mod_cast hn
  have hlt : (a : ℚ) * ((n : ℚ) / (g : ℚ)) < n := by
    rw [mul_div_assoc'] at *
    rw [div_lt_iff₀ hg0]
    have haq : (a : ℚ) < (g : ℚ) := by exact_mod_cast ha
    calc (a : ℚ) * (n : ℚ) < (g : ℚ) * (n : ℚ) := by
          exact mul_lt_mul_of_pos_right haq hn0
      _ = (n : ℚ) * (g : ℚ) := mul_comm _ _
  have hf : Int.floor ((a : ℚ) * ((n : ℚ) / (g : ℚ))) < (n : ℤ) := by
    rw [Int.floor_lt]
    exact_mod_cast hlt
  omega

/-- C10: for a positive-size image and a positive grid edge, the depth-map
sampling index floor(y * (h / g)) * w + floor(x * (w / g)) lies strictly
below w * h for every grid cell, so the LuminanceField read of the sampler is
always in bounds. -/
theorem C10_sample_index_in_bounds (w h g x y : ℕ)
    (hw : 1 ≤ w) (hh : 1 ≤ h) (hx : x < g) (hy : y < g) :
    sampleIndex w h g x y < w * h ∧
    (∀ field : List ℚ, field.length = w * h →
      ∃ d, field[sampleIndex w h g x y]? = some d) := by
  have hrow : (Int.floor ((y : ℚ) * ((h : ℚ) / (g : ℚ)))).toNat < h :=
    floor_coord_lt y h g hh hy
  have hcol : (Int.floor ((x : ℚ) * ((w : ℚ) / (g : ℚ)))).toNat < w :=
    floor_coord_lt x w g hw hx
  have hidx : sampleIndex w h g x y < w * h := by
    rw [sampleIndex]
    set a := (Int.floor ((y : ℚ) * ((h : ℚ) / (g : ℚ)))).toNat with ha
    set b := (Int.floor ((x : ℚ) * ((w : ℚ) / (g : ℚ)))).toNat with hb
    calc a * w + b < a * w + w := by omega
      _ = (a + 1) * w := by ring
      _ ≤ h * w := Nat.mul_le_mul_right w hrow
      _ = w * h := Nat.mul_comm h w
  refine ⟨hidx, ?_⟩
  intro field hflen
  have : sampleIndex w h g x y < field.length := by rw [hflen]; exact hidx
  rcases hr : field[sampleIndex w h g x y]? with _ | d
  · rw [List.getElem?_eq_none_iff] at hr
    omega
  · exact ⟨d, rfl⟩

/-- C10 witness: the theorem applied at the smallest positive sizes. -/
theorem C10_witness :
    sampleIndex 1 1 1 0 0 < 1 ∧
    (∀ field : List ℚ, field.length = 1 → ∃ d, field[sampleIndex 1 1 1 0 0]? = some d) :=
  C10_sample_index_in_bounds 1 1 1 0 0 (by decide) (by decide) (by decide) (by decide)

/-- Concrete evaluation: the luminance field of imgC1. -/
theorem processImage_imgC1 : processImage imgC1 = [4/51] := by
  norm_num [processImage, imgC1, buildDepthMap]

/-- Concrete evaluation: the kept cells of imgC1 under pTiny. -/
theorem keptCells_tiny :
    keptCells imgC1 (processImage imgC1) pTiny = [(0, 0, 4/51)] := by
  rw [processImage_imgC1]
  norm_num [keptCells, cellList, gridSize, pTiny, sampleIndex, imgC1, List.range_succ,
    List.range_zero, List.flatMap_cons, List.flatMap_nil, List.filterMap_cons]

/-- Concrete evaluation: the kept cells of imgC1 under pB. -/
theorem keptCells_tinyB :
    keptCells imgC1 (processImage imgC1) pB = [(0, 0, 4/51)] := by
  rw [processImage_imgC1]
  norm_num [keptCells, cellList, gridSize, pB, sampleIndex, imgC1, List.range_succ,
    List.range_zero, List.flatMap_cons, List.flatMap_nil, List.filterMap_cons]

/-- Concrete evaluation: one rebuild on imgC1 under pTiny from stream
position k yields one cube and advances the stream by three draws. -/
theorem tiny_eval (k : ℕ) :
    updateCubesFrom imgC1 (processImage imgC1) pTiny randLin k =
      ([placeCube imgC1 pTiny randLin k (0, 0, 4/51)], k + 3) := by
  rw [updateCubesFrom, keptCells_tiny]
  simp [buildCubes]

/-- Concrete evaluation: the same rebuild under pB. -/
theorem tiny_evalB (k : ℕ) :
    updateCubesFrom imgC1 (processImage imgC1) pB randLin k =
      ([placeCube imgC1 pB randLin k (0, 0, 4/51)], k + 3) := by
  rw [updateCubesFrom, keptCells_tinyB]
  simp [buildCubes]

/-- Concrete evaluation: updateCubes on imgC1 under pTiny. -/
theorem updateCubes_tiny :
    updateCubes imgC1 (processImage imgC1) pTiny randLin =
      [placeCube imgC1 pTiny randLin 0 (0, 0, 4/51)] := by
  rw [updateCubes, tiny_eval]

/-- Concrete evaluation: updateCubes on imgC1 under pB. -/
theorem updateCubes_tinyB :
    updateCubes imgC1 (processImage imgC1) pB randLin =
      [placeCube imgC1 pB randLin 0 (0, 0, 4/51)] := by
  rw [updateCubes, tiny_evalB]

/-- C3: a cell (x, y) is sampled exactly at depth-map index
floor(y * (height / gridSize)) * width + floor(x * (width / gridSize)),
kept exactly when the read is defined and above the threshold, and every
built instance has position ((x - gridSize/2) * 0.5,
(y - gridSize/2) * 0.5, depth * zDepthMultiplier) for its cell. -/
theorem C3_cell_sampling (img : ImageData) (field : List ℚ) (p : Params) (rand : ℕ → ℚ) :
    (∀ x y d, (x, y, d) ∈ keptCells img field p ↔
      (x < gridSize p ∧ y < gridSize p ∧
       field[(Int.floor ((y : ℚ) * ((img.height : ℚ) / (gridSize p : ℚ)))).toNat * img.width
         + (Int.floor ((x : ℚ) * ((img.width : ℚ) / (gridSize p : ℚ)))).toNat]? = some d ∧
       p.contrastThreshold < d)) ∧
    (∀ inst ∈ updateCubes img field p rand, ∃ x y d,
      (x, y, d) ∈ keptCells img field p ∧
      inst.posX = ((x : ℚ) - (gridSize p : ℚ) / 2) * (1/2) ∧
      inst.posY = ((y : ℚ) - (gridSize p : ℚ) / 2) * (1/2) ∧
      inst.posZ = d * p.zDepthMultiplier) := by
  constructor
  · intro x y d
    exact mem_keptCells img field p x y d
  · intro inst hinst
    obtain ⟨j, c, hc, rfl⟩ := mem_buildCubes img p rand 0 (keptCells img field p) inst hinst
    rcases c with ⟨x, y, d⟩
    exact ⟨x, y, d, hc, rfl, rfl, rfl⟩

/-- C3 witness: the position of the one cube built from imgC1 under
pTiny matches its kept cell. -/
theorem C3_witness : ∃ x y d,
    (x, y, d) ∈ keptCells imgC1 (processImage imgC1) pTiny ∧
    (placeCube imgC1 pTiny randLin 0 (0, 0, 4/51)).posX
      = ((x : ℚ) - (gridSize pTiny : ℚ) / 2) * (1/2) ∧
    (placeCube imgC1 pTiny randLin 0 (0, 0, 4/51)).posY
      = ((y : ℚ) - (gridSize pTiny : ℚ) / 2) * (1/2) ∧
    (placeCube imgC1 pTiny randLin 0 (0, 0, 4/51)).posZ
      = d * pTiny.zDepthMultiplier :=
  (C3_cell_sampling imgC1 (processImage imgC1) pTiny randLin).2
    (placeCube imgC1 pTiny randLin 0 (0, 0, 4/51))
    (by rw [updateCubes_tiny]; exact List.mem_singleton_self _)

/-- C4 counterexample: two parameter records that agree on density and
threshold but differ in zDepthMultiplier rebuild different instance sets
from the same LuminanceField, so the instance set is not a pure function
of (LuminanceField, density, threshold) alone. -/
theorem C4_counterexample :
    pTiny.cubeDensity = pB.cubeDensity ∧
    pTiny.contrastThreshold = pB.contrastThreshold ∧
    updateCubes imgC1 (processImage imgC1) pTiny randLin ≠
      updateCubes imgC1 (processImage imgC1) pB randLin := by
  refine ⟨rfl, rfl, ?_⟩
  rw [updateCubes_tiny, updateCubes_tinyB]
  intro h
  have h1 : placeCube imgC1 pTiny randLin 0 (0, 0, 4/51)
      = placeCube imgC1 pB randLin 0 (0, 0, 4/51) := by
    injection h
  have h2 := congrArg CubeInstance.posZ h1
  simp only [placeCube, createCube, pTiny, pB] at h2
  norm_num at h2

/-- C4 amended: the kept cells with their sampled depths are a pure
function of the LuminanceField, the image dimensions, density and
threshold; the full instance attributes additionally depend on the other
parameters, the raw pixel buffer and the random draws; and neither the
rotation-speed nor the pulse-strength controller triggers a rebuild. -/
theorem C4_amended :
    (∀ (img1 img2 : ImageData) (field : List ℚ) (p1 p2 : Params),
      img1.width = img2.width → img1.height = img2.height →
      p1.cubeDensity = p2.cubeDensity → p1.contrastThreshold = p2.contrastThreshold →
      keptCells img1 field p1 = keptCells img2 field p2) ∧
    (∀ v, guiTriggersRebuild (GuiEdit.setRotationSpeed v) = false) ∧
    (∀ v, guiTriggersRebuild (GuiEdit.setPulseStrength v) = false) := by
  refine ⟨?_, fun v => rfl, fun v => rfl⟩
  intro img1 img2 field p1 p2 hw hh hd ht
  have hg : gridSize p1 = gridSize p2 := by rw [gridSize, gridSize, hd]
  simp only [keptCells, hg, hw, hh, ht]

/-- C4 amended witness: applied to pTiny and pB on imgC1. -/
theorem C4_amended_witness :
    keptCells imgC1 (processImage imgC1) pTiny = keptCells imgC1 (processImage imgC1) pB :=
  C4_amended.1 imgC1 imgC1 (processImage imgC1) pTiny pB rfl rfl rfl rfl

/-- The stream position does not change any attribute of the built cubes
other than the drawn rotation velocities. -/
theorem buildCubes_map_forget (img : ImageData) (p : Params) (rand : ℕ → ℚ)
    (l : List (ℕ × ℕ × ℚ)) :
    ∀ k1 k2, (buildCubes img p rand k1 l).map forgetRotVel
      = (buildCubes img p rand k2 l).map forgetRotVel := by
  induction l with
  | nil => intro k1 k2; rfl
  | cons c rest ih =>
      intro k1 k2
      simp only [buildCubes, List.map_cons, ih (k1 + 3) (k2 + 3)]
      rfl

/-- C5 counterexample: running the sampler a second time with the very
same Parameters and LuminanceField, but with the Math.random() stream at
the position the first run left it, yields a different instance list (the
rotation velocities are drawn afresh), so the two runs do not produce the
same instances with all the same attributes. -/
theorem C5_counterexample :
    (updateCubesFrom imgC1 (processImage imgC1) pTiny randLin 0).1 ≠
      (updateCubesFrom imgC1 (processImage imgC1) pTiny randLin
        (updateCubesFrom imgC1 (processImage imgC1) pTiny randLin 0).2).1 := by
  have h2 : (updateCubesFrom imgC1 (processImage imgC1) pTiny randLin 0).2 = 3 := by
    rw [tiny_eval]
  rw [h2, tiny_eval 0, tiny_eval 3]
  simp only
  intro h
  have h1 : placeCube imgC1 pTiny randLin 0 (0, 0, 4/51)
      = placeCube imgC1 pTiny randLin 3 (0, 0, 4/51) := by
    injection h
  have h3 := congrArg CubeInstance.rotVelX h1
  simp only [placeCube, createCube, pTiny, randLin] at h3
  norm_num at h3

/-- C5 amended: two runs of the sampler with identical Parameters and
identical LuminanceField agree on the instance count and on every
attribute of every instance except the freshly drawn random rotation
velocities, whatever stream positions the two runs start from. -/
theorem C5_amended (img : ImageData) (field : List ℚ) (p : Params) (rand : ℕ → ℚ)
    (k1 k2 : ℕ) :
    ((updateCubesFrom img field p rand k1).1).map forgetRotVel =
      ((updateCubesFrom img field p rand k2).1).map forgetRotVel ∧
    ((updateCubesFrom img field p rand k1).1).length =
      ((updateCubesFrom img field p rand k2).1).length := by
  constructor
  · rw [updateCubesFrom, updateCubesFrom]
    exact buildCubes_map_forget img p rand (keptCells img field p) k1 k2
  · rw [updateCubesFrom, updateCubesFrom]
    simp only [buildCubes_length]

/-- C6 counterexample: in the cube-animation.js per-frame update the
applied scale is not the pulse factor multiplied by cubeSize, for either
candidate pulse constant (1 or 0.2): with pulseStrength 1/2, cubeSize 2
and sin(2t) = 1/2 the code applies 5/4, not 5/2 or 21/10. -/
theorem C6_counterexample :
    (animateCube pC6 (1/2) (placeCube imgC1 pTiny randLin 0 (0, 0, 4/51))).scaleX ≠
        (1 + (1/2) * pC6.pulseStrength * 1) * pC6.cubeSize ∧
    (animateCube pC6 (1/2) (placeCube imgC1 pTiny randLin 0 (0, 0, 4/51))).scaleX ≠
        (1 + (1/2) * pC6.pulseStrength * (2/10)) * pC6.cubeSize := by
  constructor <;> (simp [animateCube, pC6]; norm_num)

/-- C6 amended: in cube-animation.js every cube of the per-frame update
gets the uniform scale 1 + sin(2t) * pulseStrength on all three axes, with
the cubeSize parameter not reapplied; in the unnamed variant every cube
gets (1 + sin(2t) * pulseStrength * 0.2) * cubeSize on all three axes. -/
theorem C6_amended :
    (∀ (p : Params) (sinv : ℚ) (cubes : List CubeInstance),
      ∀ c ∈ animateFrame p sinv cubes,
        c.scaleX = 1 + sinv * p.pulseStrength ∧
        c.scaleY = 1 + sinv * p.pulseStrength ∧
        c.scaleZ = 1 + sinv * p.pulseStrength) ∧
    (∀ (p : Params) (sinv : ℚ) (cubes : List CubeInstance),
      ∀ c ∈ animateFrameAlt p sinv cubes,
        c.scaleX = (1 + sinv * p.pulseStrength * (2/10)) * p.cubeSize ∧
        c.scaleY = (1 + sinv * p.pulseStrength * (2/10)) * p.cubeSize ∧
        c.scaleZ = (1 + sinv * p.pulseStrength * (2/10)) * p.cubeSize) := by
  constructor
  · intro p sinv cubes c hc
    obtain ⟨a, _, rfl⟩ := List.mem_map.mp hc
    exact ⟨rfl, rfl, rfl⟩
  · intro p sinv cubes c hc
    obtain ⟨a, _, rfl⟩ := List.mem_map.mp hc
    exact ⟨rfl, rfl, rfl⟩

/-- C6 amended witness: both per-frame updates applied to a concrete
one-cube list. -/
theorem C6_amended_witness :
    ((animateCube pC6 (1/2) (placeCube imgC1 pTiny randLin 0 (0, 0, 4/51))).scaleX
        = 1 + (1/2) * pC6.pulseStrength ∧
      (animateCube pC6 (1/2) (placeCube imgC1 pTiny randLin 0 (0, 0, 4/51))).scaleY
        = 1 + (1/2) * pC6.pulseStrength ∧
      (animateCube pC6 (1/2) (placeCube imgC1 pTiny randLin 0 (0, 0, 4/51))).scaleZ
        = 1 + (1/2) * pC6.pulseStrength) ∧
    ((animateCubeAlt pC6 (1/2) (placeCube imgC1 pTiny randLin 0 (0, 0, 4/51))).scaleX
        = (1 + (1/2) * pC6.pulseStrength * (2/10)) * pC6.cubeSize) :=
  ⟨C6_amended.1 pC6 (1/2) [placeCube imgC1 pTiny randLin 0 (0, 0, 4/51)]
      (animateCube pC6 (1/2) (placeCube imgC1 pTiny randLin 0 (0, 0, 4/51)))
      (by simp [animateFrame]),
   (C6_amended.2 pC6 (1/2) [placeCube imgC1 pTiny randLin 0 (0, 0, 4/51)]
      (animateCubeAlt pC6 (1/2) (placeCube imgC1 pTiny randLin 0 (0, 0, 4/51)))
      (by simp [animateFrameAlt])).1⟩

/-- C7: a GUI edit of pulseStrength or rotationSpeed only writes the
parameter value; the live cube list, the loaded image with its depth map,
and the random stream position are all left untouched (those controllers
have no onChange handler), so the instance count, the instantiated cells,
their positions and their colors are unchanged. -/
theorem C7_pulse_rotation_edits (rand : ℕ → ℚ) (s : SysState) (v : ℚ) :
    (applyGuiEdit rand s (GuiEdit.setPulseStrength v)).cubes = s.cubes ∧
    (applyGuiEdit rand s (GuiEdit.setRotationSpeed v)).cubes = s.cubes ∧
    (applyGuiEdit rand s (GuiEdit.setPulseStrength v)).loaded = s.loaded ∧
    (applyGuiEdit rand s (GuiEdit.setRotationSpeed v)).loaded = s.loaded ∧
    (applyGuiEdit rand s (GuiEdit.setPulseStrength v)).randCtr = s.randCtr ∧
    (applyGuiEdit rand s (GuiEdit.setRotationSpeed v)).randCtr = s.randCtr := by
  simp [applyGuiEdit, guiTriggersRebuild]

/-- C8: in sampled mode the material color is read from the raw pixel
buffer at pixel index floor(depth * pixelCount) (byte offset 4 times
that), not from the own pixel of the sampled cell (on img21 the sampled cell is
pixel 0 but the color comes from pixel 1), and the read is not bounds
checked: on the all-white image the only depth is exactly 1 and the byte
offset equals the buffer length, so the read falls outside the buffer and
yields undefined channels. -/
theorem C8_sampled_color_read :
    (∀ (img : ImageData) (p : Params) (depth : ℚ),
      cubeColor img { p with colorMode := ColorMode.sampled } depth =
        ⟨(jsRead img.data (Int.floor (depth * ((img.data.length : ℚ) / 4)) * 4)).map
            (fun v => (v : ℚ) / 255),
         (jsRead img.data (Int.floor (depth * ((img.data.length : ℚ) / 4)) * 4 + 1)).map
            (fun v => (v : ℚ) / 255),
         (jsRead img.data (Int.floor (depth * ((img.data.length : ℚ) / 4)) * 4 + 2)).map
            (fun v => (v : ℚ) / 255)⟩) ∧
    ((processImage img21)[sampleIndex img21.width img21.height 1 0 0]? = some (3/5) ∧
      sampleIndex img21.width img21.height 1 0 0 = 0 ∧
      Int.floor ((3/5 : ℚ) * ((img21.data.length : ℚ) / 4)) = 1 ∧
      cubeColor img21 pSampled (3/5) = ⟨some (7/255), some (8/255), some (9/255)⟩) ∧
    (processImage imgWhite = [1] ∧
      Int.floor ((1 : ℚ) * ((imgWhite.data.length : ℚ) / 4)) * 4 = (imgWhite.data.length : ℤ) ∧
      cubeColor imgWhite pSampled 1 = ⟨none, none, none⟩) := by
  refine ⟨fun img p depth => rfl, ⟨?_, ?_, ?_, ?_⟩, ⟨?_, ?_, ?_⟩⟩
  · norm_num [processImage, img21, buildDepthMap, sampleIndex]
  · norm_num [sampleIndex, img21]
  · norm_num [img21, Int.floor_eq_iff]
  · norm_num [cubeColor, pSampled, jsRead, img21, Int.floor_eq_iff]
    have e4 : Int.toNat 4 = 4 := rfl
    have e5 : Int.toNat 5 = 5 := rfl
    have e6 : Int.toNat 6 = 6 := rfl
    simp only [e4, e5, e6]
    norm_num
  · norm_num [processImage, imgWhite, buildDepthMap]
  · norm_num [imgWhite]
  · norm_num [cubeColor, pSampled, jsRead, imgWhite]
    have e4 : Int.toNat 4 = 4 := rfl
    have e5 : Int.toNat 5 = 5 := rfl
    have e6 : Int.toNat 6 = 6 := rfl
    simp only [e4, e5, e6]
    norm_num
    exact fun a h => nomatch h

/-- C9: an image with zero width or zero height (hence an empty RGBA
buffer) makes the depth extractor return an empty LuminanceField and the
sampler return no instance; no error value is produced anywhere on this
path. -/
theorem C9_zero_dimensions (img : ImageData) (p : Params) (rand : ℕ → ℚ)
    (hlen : img.data.length = 4 * (img.width * img.height))
    (h0 : img.width = 0 ∨ img.height = 0) :
    processImage img = [] ∧
    updateCubes img (processImage img) p rand = [] := by
  have hl0 : img.data.length = 0 := by
    rcases h0 with h | h <;> rw [hlen, h] <;> simp
  have hdata : img.data = [] := List.eq_nil_of_length_eq_zero hl0
  have hfield : processImage img = [] := by
    rw [processImage, hdata]
    rfl
  refine ⟨hfield, ?_⟩
  have hkept : keptCells img (processImage img) p = [] := by
    rw [keptCells]
    refine List.filterMap_eq_nil_iff.mpr ?_
    intro c _
    rw [hfield]
    simp
  rw [updateCubes, updateCubesFrom, hkept]
  rfl

/-- C9 witness: the theorem applied to a concrete zero-width image. -/
theorem C9_witness :
    processImage imgZero = [] ∧
    updateCubes imgZero (processImage imgZero) pC2 randLin = [] :=
  C9_zero_dimensions imgZero pC2 randLin (by decide) (Or.inl rfl)

end CubeAnim
